import Mathlib

/-!
Verification of the kcmd stateful remote execution engine.

The definitions below are a shallow embedding of the Go sources of the
repository (main.go, internal/kubectl/client.go, internal/tui/*).  Pure
string manipulation is modelled over `List Char` (the Go code operates on
ASCII command text); the Bubble Tea update loop becomes explicit state
transition functions over a `Model` record together with a `World` record
holding the remote namespace-label state, and the effectful commands the
update loop schedules (`tea.Cmd`) become an explicit `Effect` list.
Terminal styling (lipgloss `Render`) is display-only markup and is
modelled as the identity on the text content.
-/

namespace Kcmd

/-! ## String primitives over `List Char`

These mirror the Go standard-library functions used by the source
(`strings.TrimSpace`, `strings.Split`, `strings.Fields`,
`strings.Contains`, `strings.HasPrefix`, `strings.TrimPrefix`,
`strings.Join`, `strings.LastIndex`, `sort.Strings`). Whitespace is the
ASCII subset, which covers every string the program manipulates. -/

def isSpaceChar (c : Char) : Bool :=
  c == ' ' || c == '\t' || c == '\n' || c == '\r'

def trimList (l : List Char) : List Char :=
  ((l.dropWhile isSpaceChar).reverse.dropWhile isSpaceChar).reverse

def trimStr (s : String) : String := ⟨trimList s.data⟩

def listStartsWith : List Char → List Char → Bool
  | _, [] => true
  | [], _ :: _ => false
  | a :: as, b :: bs => a == b && listStartsWith as bs

def strStartsWith (s pat : String) : Bool := listStartsWith s.data pat.data

def strEndsWith (s pat : String) : Bool :=
  listStartsWith s.data.reverse pat.data.reverse

def trimPrefixStr (s pat : String) : String :=
  if strStartsWith s pat then ⟨s.data.drop pat.data.length⟩ else s

def containsList (hay pat : List Char) : Bool :=
  match hay with
  | [] => pat.isEmpty
  | _ :: t => listStartsWith hay pat || containsList t pat

def containsSubstr (s pat : String) : Bool := containsList s.data pat.data

def splitOnPred (p : Char → Bool) : List Char → List (List Char)
  | [] => [[]]
  | c :: t =>
    match splitOnPred p t with
    | [] => [[]]
    | h :: r => if p c then [] :: h :: r else (c :: h) :: r

def fieldsList (l : List Char) : List (List Char) :=
  (splitOnPred isSpaceChar l).filter (fun x => !x.isEmpty)

def fields (s : String) : List String := (fieldsList s.data).map (fun l => ⟨l⟩)

def listLE : List Char → List Char → Bool
  | [], _ => true
  | _ :: _, [] => false
  | a :: as, b :: bs => if a == b then listLE as bs else decide (a < b)

def strLE (a b : String) : Bool := listLE a.data b.data

/-- Minimum of a list of strings: the element `sort.Strings` followed by
taking index 0 produces in the Go source. -/
def minStr : List String → Option String
  | [] => none
  | x :: xs =>
    match minStr xs with
    | none => some x
    | some y => some (if strLE x y then x else y)

def natDigitChar (k : Nat) : Char :=
  if k = 0 then '0' else if k = 1 then '1' else if k = 2 then '2'
  else if k = 3 then '3' else if k = 4 then '4' else if k = 5 then '5'
  else if k = 6 then '6' else if k = 7 then '7' else if k = 8 then '8' else '9'

def natToStrAux : Nat → Nat → List Char
  | 0, _ => []
  | fuel + 1, n =>
    if n < 10 then [natDigitChar n]
    else natToStrAux fuel (n / 10) ++ [natDigitChar (n % 10)]

/-- Decimal rendering of a natural number, as `fmt.Sprintf("%d", n)`. -/
def natToStr (n : Nat) : String := ⟨natToStrAux (n + 1) n⟩

/-- `strings.Join(lines, "\n")`. -/
def joinNL : List String → String
  | [] => ""
  | [x] => x
  | x :: xs => x ++ "\n" ++ joinNL xs

/-- `strings.Join(words, " ")`. -/
def joinSp : List String → String
  | [] => ""
  | [x] => x
  | x :: xs => x ++ " " ++ joinSp xs

def lowerStr (s : String) : String := ⟨s.data.map Char.toLower⟩

/-- Split a token at its last slash, returning (directory part including
the slash, remainder); `none` when the token holds no slash.  Mirrors the
`strings.Contains`/`strings.LastIndex` pair in the autocomplete code. -/
def splitLastSlash : List Char → Option (List Char × List Char)
  | [] => none
  | c :: t =>
    match splitLastSlash t with
    | some (d, f) => some (c :: d, f)
    | none => if c == '/' then some (['/'], t) else none

def takeDigits (l : List Char) : List Char :=
  l.takeWhile (fun c => decide ('0' ≤ c) && decide (c ≤ '9'))

def digitsToNat (l : List Char) : Nat :=
  l.foldl (fun a c => a * 10 + (c.toNat - 48)) 0

/-- Model of one `fmt.Sscanf` percent-d conversion: the verb first
discards leading spaces from the remaining input, then reads an optional
sign immediately followed by a digit run.  On success it returns the
value and the unconsumed remainder; with no digits the scan fails and
the target variable keeps its zero value. -/
def scanIntGo (l : List Char) : Option (Int × List Char) :=
  let l1 := l.dropWhile isSpaceChar
  match l1 with
  | '-' :: rest =>
    let d := takeDigits rest
    if d.isEmpty then none else some (-(digitsToNat d : Int), rest.drop d.length)
  | '+' :: rest =>
    let d := takeDigits rest
    if d.isEmpty then none else some ((digitsToNat d : Int), rest.drop d.length)
  | _ =>
    let d := takeDigits l1
    if d.isEmpty then none else some ((digitsToNat d : Int), l1.drop d.length)

/-- Model of `fmt.Sscanf` with a two-number format such as the percent-d,
comma, percent-d one: scan the first number, then require the literal
separator to match the very next input character (literal format text
matches exactly — no space skipping), then scan the second number.
A failed step stops the scan, leaving the remaining target variables at
their zero values. -/
def scanPairGo (sep : Char) (l : List Char) : Int × Int :=
  match scanIntGo l with
  | none => (0, 0)
  | some (a, rest) =>
    match rest with
    | c :: rest2 =>
      if c == sep then
        match scanIntGo rest2 with
        | none => (a, 0)
        | some (b, _) => (a, b)
      else (a, 0)
    | [] => (a, 0)

/-! ## Data model

`Model` embeds the session-relevant fields of `tui.Model`
(internal/tui/model.go); the Bubble Tea widget internals (list, spinner,
viewport) are rendering state and are not part of the session.  The text
input widget is represented by its current value, which is what the
update code reads (`m.Input.Value()`) and writes (`m.Input.SetValue`).
The Go `map[string]bool` word set becomes a duplicate-free list. -/

structure Model where
  nsName : String
  podName : String
  container : String
  inputValue : String
  outputLines : List String
  autocompleteWords : List String
  history : List String
  histIdx : Int
  currentDir : String
  useDebugContainer : Bool
  debugContainer : String
  targetRoot : String
  originalPodSecurityPolicy : String
  changedPodSecurityPolicy : Bool
  loading : Bool
  lastErr : String
deriving DecidableEq

/-- Remote cluster state visible to the Security Policy Negotiator: the
namespace enforcement label (`""` = label absent, exactly the convention
of `GetPodSecurityPolicy`), plus injectable kubectl failures for the read
and write calls. -/
structure World where
  nsPolicy : String
  getErr : Option String
  setErr : Option String
deriving DecidableEq

/-- The effectful `tea.Cmd`s scheduled by the update loop (spinner ticks
are pure animation and omitted). -/
inductive Effect where
  | runCmd (ns pod container cmdline currentDir : String)
      (useDebug : Bool) (debugContainer targetRoot : String)
  | createDebug (ns pod container : String)
  | clipboard (prog text : String)
  | quit
deriving DecidableEq

/-- `cmdResultMsg`: the asynchronous result of one Gateway invocation.
`took` carries the pre-formatted elapsed-time text. -/
structure CmdResult where
  cmd : String
  stdout : String
  stderr : String
  err : Option String
  took : String
deriving DecidableEq

/-- `debugContainerMsg`: the asynchronous result of one provisioning run. -/
structure DebugResult where
  debugContainer : String
  targetRoot : String
  err : Option String
deriving DecidableEq

structure StepResult where
  world : World
  model : Model
  effects : List Effect
deriving DecidableEq

/-- lipgloss styling wraps the text in terminal colour markup; it is
display-only, so rendering is the identity on content. -/
def render (s : String) : String := s

/-! ## Output & History Store (`AppendOutput`, internal/tui part) -/

def extractWords (l : List Char) : List String :=
  ((fieldsList l).filter
    (fun w => decide (w.length > 2) && !listStartsWith w ['/'])).map (fun w => ⟨w⟩)

def insertWord (ws : List String) (w : String) : List String :=
  if w ∈ ws then ws else ws ++ [w]

/-- `AppendOutput` from internal/tui: split on newlines, drop empty lines
unless the input ended in a newline, append each kept line to the output
log and feed its words (length > 2, not slash-prefixed) into the
autocomplete dictionary.  The numbered display string is derived
rendering state and not tracked. -/
def appendOutput (m : Model) (s : String) : Model :=
  if s = "" then m
  else
    let kept := (splitOnPred (fun c => c == '\n') s.data).filter
      (fun l => !(l.isEmpty && !strEndsWith s "\n"))
    let keptStrs : List String := kept.map (fun l => ⟨l⟩)
    { m with
      outputLines := m.outputLines ++ keptStrs,
      autocompleteWords :=
        keptStrs.foldl (fun ws l => (extractWords l.data).foldl insertWord ws)
          m.autocompleteWords }

/-! ## Security Policy Negotiator (internal/kubectl/client.go) -/

/-- `GetPodSecurityPolicy`: read the namespace enforcement label; kubectl
failure propagates, otherwise the (trimmed) label value, `""` if absent. -/
def getPodSecurityPolicyW (w : World) : Except String String :=
  match w.getErr with
  | some e => Except.error e
  | none => Except.ok w.nsPolicy

/-- The kubectl argument list `SetPodSecurityPolicy` issues: an empty
policy removes the label (the `enforce-` form), a non-empty policy sets
it with `--overwrite`. -/
def setPodSecurityPolicyArgs (ns policy : String) : List String :=
  if policy = "" then
    ["label", "namespace", ns, "pod-security.kubernetes.io/enforce-"]
  else
    ["label", "namespace", ns,
      "pod-security.kubernetes.io/enforce=" ++ policy, "--overwrite"]

/-- `SetPodSecurityPolicy` acting on the remote state: removal when the
value is empty, set-with-overwrite otherwise; kubectl failure leaves the
label untouched. -/
def setPodSecurityPolicyW (w : World) (policy : String) : Except String World :=
  match w.setErr with
  | some e => Except.error e
  | none => Except.ok { w with nsPolicy := policy }

/-! ## Command-result handling (`Update`, `CmdResultMsg` case) -/

/-- The "no shell" reclassification condition from the `CmdResultMsg`
case: a failed result, not already in debug mode, whose stderr contains
one of the three marker substrings. -/
def shellMissingCond (err : Option String) (useDebug : Bool) (stderr : String) : Bool :=
  err.isSome && !useDebug &&
    (containsSubstr stderr "executable file not found" ||
     containsSubstr stderr "OCI runtime exec failed" ||
     containsSubstr stderr "not found")

def noShellLine : String :=
  "Container has no shell. Creating ephemeral debug container..."

def policyChangingLine (p : String) : String :=
  "Namespace policy is \x27" ++ p ++ "\x27, changing to \x27privileged\x27..."

def policyChangedLine : String :=
  "✓ Changed namespace policy to \x27privileged\x27"

def policyRestoreLine : String :=
  "Policy will be restored to original on quit."

def permissionHintLine : String :=
  "You may need permissions to modify namespace labels."

def getPolicyFailLine (e : String) : String :=
  "Failed to get current policy: " ++ e

def setPolicyFailLine (e : String) : String :=
  "Failed to change policy: " ++ e

def headerLine (cmd took status : String) : String :=
  "» " ++ cmd ++ "  (" ++ took ++ ")  [" ++ status ++ "]"

/-- The `CmdResultMsg` branch of `Update`: either reclassify the failure
as ShellMissing (suppressing the normal display, elevating the namespace
policy when needed, and scheduling one provisioning attempt), or append
the normal result block. -/
def stepCmdResult (w : World) (m : Model) (msg : CmdResult) : StepResult :=
  let mc := { m with loading := false, lastErr := "" }
  -- the loading/lastErr reset does not touch the fields the
  -- reclassification condition reads
  if shellMissingCond msg.err m.useDebugContainer msg.stderr then
    let m := appendOutput mc (render noShellLine)
    match getPodSecurityPolicyW w with
    | Except.error e =>
      { world := w,
        model := appendOutput m (render (getPolicyFailLine e)),
        effects := [] }
    | Except.ok currentPolicy =>
      if currentPolicy ≠ "privileged" then
        let m := appendOutput m (policyChangingLine currentPolicy)
        let m := { m with originalPodSecurityPolicy := currentPolicy }
        match setPodSecurityPolicyW w "privileged" with
        | Except.error e =>
          let m := appendOutput m (render (setPolicyFailLine e))
          let m := appendOutput m permissionHintLine
          { world := w, model := m, effects := [] }
        | Except.ok w2 =>
          let m := { m with changedPodSecurityPolicy := true }
          let m := appendOutput m (render policyChangedLine)
          let m := appendOutput m policyRestoreLine
          let m := appendOutput m ""
          { world := w2, model := { m with loading := true },
            effects := [Effect.createDebug m.nsName m.podName m.container] }
      else
        { world := w, model := { m with loading := true },
          effects := [Effect.createDebug m.nsName m.podName m.container] }
  else
    let status := if msg.err.isSome then render "ERR" else render "OK"
    let m := if msg.err.isSome then { mc with lastErr := trimStr msg.stderr } else mc
    let m := appendOutput m (headerLine msg.cmd msg.took status)
    let m := if trimStr msg.stdout ≠ "" then appendOutput m msg.stdout else m
    let m := if trimStr msg.stderr ≠ "" then appendOutput m (render msg.stderr) else m
    { world := w, model := m, effects := [] }

/-! ## Debug-container result handling (`Update`, `DebugContainerMsg` case) -/

def debugBlockedLine : String :=
  "Debug container creation blocked by restricted PodSecurity policy"

def debugTryChangeLine : String :=
  "Attempting to temporarily change namespace policy to \x27privileged\x27..."

def changedFromNoPolicyLine : String :=
  "Changed namespace from no policy (unrestricted) to \x27privileged\x27"

def changedFromPolicyLine (p : String) : String :=
  "Changed namespace policy from \x27" ++ p ++ "\x27 to \x27privileged\x27"

def retryingLine : String := "Retrying debug container creation..."

/-- The restrictive-policy marker match on a provisioning failure. -/
def policyBlockedCond (e : String) : Bool :=
  containsSubstr e "runAsNonRoot" || containsSubstr e "runAsUser=0" ||
    containsSubstr e "PodSecurity"

/-- The `DebugContainerMsg` branch of `Update`: on a policy-blocked
failure, elevate (note: it records the *current* label value as the
original unconditionally) and retry once; on other failures report; on
success adopt debug mode rooted at `targetRoot` and schedule the
verification listing. -/
def stepDebugResult (w : World) (m : Model) (msg : DebugResult) : StepResult :=
  let m := { m with loading := false }
  match msg.err with
  | some e =>
    let m := { m with lastErr := e }
    if policyBlockedCond e then
      let m := appendOutput m (render debugBlockedLine)
      let m := appendOutput m ""
      let m := appendOutput m debugTryChangeLine
      match getPodSecurityPolicyW w with
      | Except.error ge =>
        { world := w,
          model := appendOutput m (render (getPolicyFailLine ge)),
          effects := [] }
      | Except.ok currentPolicy =>
        let m := { m with originalPodSecurityPolicy := currentPolicy }
        match setPodSecurityPolicyW w "privileged" with
        | Except.error se =>
          let m := appendOutput m (render (setPolicyFailLine se))
          let m := appendOutput m permissionHintLine
          { world := w, model := m, effects := [] }
        | Except.ok w2 =>
          let m := { m with changedPodSecurityPolicy := true }
          let m :=
            if currentPolicy = "" then appendOutput m (render changedFromNoPolicyLine)
            else appendOutput m (render (changedFromPolicyLine currentPolicy))
          let m := appendOutput m policyRestoreLine
          let m := appendOutput m ""
          let m := appendOutput m retryingLine
          { world := w2, model := { m with loading := true },
            effects := [Effect.createDebug m.nsName m.podName m.container] }
    else
      { world := w,
        model := appendOutput m (render ("Failed to create debug container: " ++ e)),
        effects := [] }
  | none =>
    let m := { m with useDebugContainer := true, debugContainer := msg.debugContainer,
                      targetRoot := msg.targetRoot, currentDir := "/" }
    let m := appendOutput m
      (render ("Debug container \x27" ++ msg.debugContainer ++ "\x27 created."))
    let m := appendOutput m ("Target container filesystem: " ++ msg.targetRoot)
    let m := appendOutput m ""
    let m := appendOutput m "Testing filesystem access..."
    let testCmd := "ls " ++ msg.targetRoot ++ " 2>&1 | head -5"
    { world := w, model := { m with loading := true },
      effects := [Effect.runCmd m.nsName m.podName m.container testCmd ""
        true m.debugContainer m.targetRoot] }

/-! ## History navigation (`handleHistoryUp` / `handleHistoryDown`) -/

def handleHistoryUp (m : Model) : Model :=
  if m.history.length = 0 then m
  else
    let idx : Int :=
      if m.histIdx = -1 then (m.history.length : Int) - 1
      else if m.histIdx > 0 then m.histIdx - 1
      else m.histIdx
    { m with histIdx := idx, inputValue := m.history.getD idx.toNat "" }

def handleHistoryDown (m : Model) : Model :=
  if m.history.length = 0 then m
  else if m.histIdx = -1 then m
  else if m.histIdx < (m.history.length : Int) - 1 then
    let idx := m.histIdx + 1
    { m with histIdx := idx, inputValue := m.history.getD idx.toNat "" }
  else
    { m with histIdx := -1, inputValue := "" }

/-- The consecutive-dedup history append used by both `handleCommand` and
`handleCdCommand`. -/
def histAppendDedup (m : Model) (cmdline : String) : Model :=
  if m.history.length = 0 ∨ m.history.getLast? ≠ some cmdline then
    { m with history := m.history ++ [cmdline] }
  else m

/-! ## Working-directory emulation (`handleCdCommand`) -/

/-- The argument a `cd` line carries: `strings.TrimSpace(strings.TrimPrefix(cmdline, "cd"))`. -/
def cdArgOf (cmdline : String) : String := trimStr (trimPrefixStr cmdline "cd")

/-- One directory update: empty or `~` resets to home (`""`), a leading
slash replaces, anything else joins onto the current value with `/`. -/
def cdStep (cur arg : String) : String :=
  if arg = "" ∨ arg = "~" then ""
  else if strStartsWith arg "/" then arg
  else if cur = "" then arg
  else cur ++ "/" ++ arg

def handleCdCommand (m : Model) (cmdline : String) : Model :=
  let m := { m with currentDir := cdStep m.currentDir (cdArgOf cmdline) }
  let m := { m with autocompleteWords := [] }
  let m := histAppendDedup m cmdline
  let dirDisplay := if m.currentDir = "" then "~" else m.currentDir
  let m := appendOutput m ("» " ++ cmdline)
  appendOutput m (render ("Working directory: " ++ dirDisplay))

/-! ## Copy-to-clipboard (`handleCopyCommand`) -/

/-- The host clipboard environment: the first available clipboard program
found by the `exec.LookPath` preference chain (none when unavailable) and
whether running it succeeds. -/
structure ClipboardEnv where
  prog : Option String
  runOk : Bool
deriving DecidableEq

/-- Range parsing for `/copy`: when the text contains a comma, scan it
with the comma pair format; otherwise, containing a dash, with the dash
pair format; otherwise scan a single number (the end then equals the
start).  `fmt.Sscanf` semantics: positions the scan never reaches stay
at the integer zero value, and the literal separator must match the
character immediately after the first number. -/
def parseCopyRange (r : String) : Int × Int :=
  let l := r.data
  if containsList l [','] then scanPairGo ',' l
  else if containsList l ['-'] then scanPairGo '-' l
  else
    match scanIntGo l with
    | none => (0, 0)
    | some (n, _) => (n, n)

/-- The literal-separator discipline of `fmt.Sscanf`: when the character
after the first number is not the separator the scan stops there, so
these inputs keep the second bound at zero and are rejected by the range
validation, exactly as the program rejects them. -/
theorem parseCopyRange_literal_sep :
    parseCopyRange "5 ,10" = (5, 0) ∧
    parseCopyRange "5x,10" = (5, 0) ∧
    parseCopyRange "3-5,7" = (3, 0) ∧
    parseCopyRange ",10" = (0, 0) ∧
    parseCopyRange "3, 5" = (3, 5) ∧
    parseCopyRange "-3" = (-3, 0) := by
  decide

def invalidRangeLine (n : Nat) : String :=
  "Invalid range. Available lines: 1-" ++ natToStr n

def noClipboardLine : String :=
  "No clipboard utility found (pbcopy/xclip/xsel/clip.exe)"

def copiedLine (k : Int) : String :=
  "✓ Copied " ++ natToStr k.toNat ++ " line(s) to clipboard"

def handleCopyCommand (env : ClipboardEnv) (m : Model) (cmdline : String) :
    Model × List Effect :=
  let rangeStr := trimStr (trimPrefixStr cmdline "/copy")
  let se := parseCopyRange rangeStr
  let startLine := se.1
  let endLine := se.2
  if startLine < 1 ∨ endLine < startLine ∨ endLine > (m.outputLines.length : Int) then
    (appendOutput m (render (invalidRangeLine m.outputLines.length)), [])
  else
    let linesToCopy :=
      (m.outputLines.drop (startLine - 1).toNat).take (endLine - startLine + 1).toNat
    let textToCopy := joinNL linesToCopy
    match env.prog with
    | none => (appendOutput m (render noClipboardLine), [])
    | some p =>
      if env.runOk then
        (appendOutput m (render (copiedLine (endLine - startLine + 1))),
          [Effect.clipboard p textToCopy])
      else
        (appendOutput m (render "Failed to copy: clipboard program error"),
          [Effect.clipboard p textToCopy])

/-! ## Command submission (`handleCommand`) -/

def handleCommand (env : ClipboardEnv) (m : Model) : Model × List Effect :=
  let cmdline := trimStr m.inputValue
  if cmdline = "" then (m, [])
  else
    let m := { m with inputValue := "", histIdx := -1 }
    if cmdline = "clear" then ({ m with outputLines := [] }, [])
    else if cmdline = "/quit" then (m, [Effect.quit])
    else if strStartsWith cmdline "/copy " = true then handleCopyCommand env m cmdline
    else if strStartsWith cmdline "cd " = true ∨ cmdline = "cd" then
      (handleCdCommand m cmdline, [])
    else
      let m := histAppendDedup m cmdline
      ({ m with loading := true },
        [Effect.runCmd m.nsName m.podName m.container cmdline m.currentDir
          m.useDebugContainer m.debugContainer m.targetRoot])

/-- Submit a sequence of input lines one after another (each enter key
press reads the then-current input value). -/
def submitAll (env : ClipboardEnv) (m : Model) (lines : List String) : Model :=
  lines.foldl (fun m l => (handleCommand env { m with inputValue := l }).1) m

/-! ## Autocomplete Engine (`handleAutocomplete`) -/

structure ExecResult where
  stdout : String
  stderr : String
  errored : Bool
deriving DecidableEq

/-- A remote executor: maps the fully composed shell command to its
result.  Stubs instantiate this for reproducible tests. -/
structure Executor where
  run : String → ExecResult

/-- `ExecInPod` command composition: prefix a `cd` when a working
directory is set. -/
def composeNormalCmd (cmdline currentDir : String) : String :=
  if currentDir ≠ "" then "cd " ++ currentDir ++ " && " ++ cmdline else cmdline

/-- `strings.ReplaceAll` replacing each single quote with the
quote-escape sequence the source uses. -/
def escapeQuotes (s : String) : String :=
  ⟨s.data.foldr
    (fun c acc =>
      if c == '\x27' then '\x27' :: '"' :: '\x27' :: '"' :: '\x27' :: acc
      else c :: acc) []⟩

/-- `ExecInDebugContainer` command composition: the nsenter wrapper when
the target root carries the `NSENTER:` tag, otherwise the
`/proc/<pid>/root` directory-prefix form. -/
def composeDebugCmd (targetRoot cmdline currentDir : String) : String :=
  if strStartsWith targetRoot "NSENTER:" then
    let pid := trimPrefixStr targetRoot "NSENTER:"
    let targetCmd :=
      if currentDir ≠ "" ∧ currentDir ≠ "~" then
        "cd " ++ currentDir ++ " && " ++ cmdline
      else cmdline
    "nsenter -t " ++ pid ++ " -m -u -i -p -- sh -c \x27" ++
      escapeQuotes targetCmd ++ "\x27"
  else
    if currentDir ≠ "" ∧ currentDir ≠ "~" then
      "cd " ++ targetRoot ++ currentDir ++ " && " ++ cmdline
    else
      "cd " ++ targetRoot ++ " && " ++ cmdline

def execInPodE (ex : Executor) (cmdline currentDir : String) : ExecResult :=
  ex.run (composeNormalCmd cmdline currentDir)

def execInDebugE (ex : Executor) (targetRoot cmdline currentDir : String) : ExecResult :=
  ex.run (composeDebugCmd targetRoot cmdline currentDir)

/-- The remote first-match glob command built by the tab handler. -/
def listCmdFor (dirPath partFile : String) : String :=
  "for f in " ++ dirPath ++ partFile ++
    "*; do [ -e \"$f\" ] && echo \"$f\" && break; done 2>/dev/null"

/-- The remote directory test command built by the tab handler. -/
def checkDirCmdFor (dirPath firstMatch : String) : String :=
  "[ -d \"" ++ dirPath ++ firstMatch ++ "\" ] && echo \"DIR\" || echo \"FILE\""

/-- The tab handler: phase 1 resolves the last token remotely (first
glob match, then a directory test that appends a trailing separator);
phase 2, only when phase 1 produced nothing and the token has length at
least 2, picks the smallest strict-prefix extension from the
autocomplete dictionary. -/
def handleAutocomplete (ex : Executor) (m : Model) : Model :=
  let words := fields m.inputValue
  match words.getLast? with
  | none => m
  | some lastWord =>
    let dp :=
      match splitLastSlash lastWord.data with
      | some (d, f) => ((⟨d⟩ : String), (⟨f⟩ : String))
      | none => ("./", lastWord)
    let dirPath := dp.1
    let partFile := dp.2
    let listCmd := listCmdFor dirPath partFile
    let r :=
      if m.useDebugContainer then execInDebugE ex m.targetRoot listCmd m.currentDir
      else execInPodE ex listCmd m.currentDir
    if !r.errored && r.stdout ≠ "" then
      let firstMatch := trimStr r.stdout
      let firstMatch :=
        match splitLastSlash firstMatch.data with
        | some df => (⟨df.2⟩ : String)
        | none => firstMatch
      let r2 :=
        if m.useDebugContainer then
          execInDebugE ex m.targetRoot (checkDirCmdFor dirPath firstMatch) m.currentDir
        else execInPodE ex (checkDirCmdFor dirPath firstMatch) m.currentDir
      let isDirOut := trimStr r2.stdout
      let firstMatch := if isDirOut = "DIR" then firstMatch ++ "/" else firstMatch
      let newLast := if dirPath = "./" then firstMatch else dirPath ++ firstMatch
      { m with inputValue := joinSp (words.dropLast ++ [newLast]) }
    else
      if 2 ≤ lastWord.data.length then
        let ms := m.autocompleteWords.filter
          (fun w => strStartsWith w lastWord && w ≠ lastWord)
        match minStr ms with
        | some best => { m with inputValue := joinSp (words.dropLast ++ [best]) }
        | none => m
      else m

/-! ## Debug Container Orchestrator (`CreateDebugContainer`) -/

/-- The cluster behaviour the orchestrator observes while provisioning:
per-attempt readiness observations for the poll, the nsenter probe
output, and injectable failures for the pod read and the
ephemeral-container replace call. -/
structure DebugWorld where
  getPodErr : Option String
  replaceErr : Option String
  running : Nat → Bool
  echoOk : Nat → Bool
  nsenterOut : String
  nsenterErr : Bool

def pollMaxAttempts : Nat := 30

def pollIntervalMs : Nat := 500

def pollLoopAux (dw : DebugWorld) : Nat → Nat → Option Nat
  | _, 0 => none
  | i, fuel + 1 =>
    if dw.running i && dw.echoOk i then some i else pollLoopAux dw (i + 1) fuel

/-- Index of the first poll attempt observing a running container whose
trivial remote echo succeeds, within the 30-attempt budget. -/
def pollFirstReady (dw : DebugWorld) : Option Nat := pollLoopAux dw 0 pollMaxAttempts

/-- Number of 500ms poll iterations the readiness loop performs. -/
def pollAttemptsUsed (dw : DebugWorld) : Nat :=
  match pollFirstReady dw with
  | some i => i + 1
  | none => pollMaxAttempts

deriving instance DecidableEq for Except

structure CreateDebugResult where
  outcome : Except String (String × String)
  attemptsUsed : Nat
  probeRan : Bool
deriving DecidableEq

/-- `CreateDebugContainer`: after the ephemeral-container replace call
succeeds, run the readiness poll; whether or not the poll ever observed
readiness, control falls through to the nsenter strategy probe, and the
function returns successfully with either the `NSENTER:1` mode or the
`/proc/1/root` fallback. -/
def createDebugContainerM (dw : DebugWorld) (debugName : String) : CreateDebugResult :=
  match dw.getPodErr with
  | some e =>
    { outcome := Except.error ("failed to get pod: " ++ e),
      attemptsUsed := 0, probeRan := false }
  | none =>
    match dw.replaceErr with
    | some e =>
      { outcome := Except.error ("failed to create ephemeral container: " ++ e),
        attemptsUsed := 0, probeRan := false }
    | none =>
      let attempts := pollAttemptsUsed dw
      if !dw.nsenterErr && trimStr dw.nsenterOut ≠ "" then
        { outcome := Except.ok (debugName, "NSENTER:1"),
          attemptsUsed := attempts, probeRan := true }
      else
        { outcome := Except.ok (debugName, "/proc/1/root"),
          attemptsUsed := attempts, probeRan := true }

/-- `createDebugContainerCmd` packages the provisioning outcome as the
`DebugContainerMsg` event. -/
def debugMsgOfOutcome : Except String (String × String) → DebugResult
  | Except.ok nr => { debugContainer := nr.1, targetRoot := nr.2, err := none }
  | Except.error e => { debugContainer := "", targetRoot := "", err := some e }

/-! ## Teardown after the TUI exits (`main`) -/

/-- The cleanup block of `main`, run after `p.Run()` returns.  When the
TUI run itself failed, `main` prints the error and exits with status 1
before any cleanup; otherwise it issues the policy-restore kubectl call
when the session elevated the policy, then optionally (prompted) deletes
the pod.  The result is the ordered list of kubectl invocations plus the
process exit code. -/
def mainTeardown (runFailed : Bool) (m : Model) (response : String) :
    List (List String) × Nat :=
  if runFailed then ([], 1)
  else
    let restoreCalls :=
      if m.changedPodSecurityPolicy then
        [setPodSecurityPolicyArgs m.nsName m.originalPodSecurityPolicy]
      else []
    let deleteCalls :=
      if m.debugContainer ≠ "" ∧ lowerStr (trimStr response) = "y" then
        [["delete", "pod", m.podName, "-n", m.nsName]]
      else []
    (restoreCalls ++ deleteCalls, 0)

/-- Recognise the policy-label kubectl invocations among the teardown
calls. -/
def isPolicyLabelCall (c : List String) : Bool :=
  match c with
  | "label" :: _ => true
  | _ => false

/-! ## Concrete sessions used by the theorems -/

/-- A Linux host with `xclip` available and working. -/
def env0 : ClipboardEnv := { prog := some "xclip", runOk := true }

/-- The session state on entering the shell step after target selection
(`InitialModel` plus the selection fields): empty log, empty history,
cursor idle, home directory, normal execution mode. -/
def shellModel0 : Model :=
  { nsName := "prod", podName := "web-1", container := "app", inputValue := "",
    outputLines := [], autocompleteWords := [], history := [], histIdx := -1,
    currentDir := "", useDebugContainer := false, debugContainer := "",
    targetRoot := "", originalPodSecurityPolicy := "",
    changedPodSecurityPolicy := false, loading := false, lastErr := "" }

/-- A healthy cluster whose namespace carries the `baseline` enforcement
label. -/
def w0 : World := { nsPolicy := "baseline", getErr := none, setErr := none }

/-- A failed command result from a shell-less container. -/
def msgNoShell : CmdResult :=
  { cmd := "ls", stdout := "",
    stderr := "exec: \"ls\": executable file not found in $PATH",
    err := some "command terminated with exit code 126", took := "80ms" }

/-- A provisioning failure whose message carries the PodSecurity marker
(e.g. another admission controller rejecting the root debug container
after the label change). -/
def msgPolicyBlocked : DebugResult :=
  { debugContainer := "", targetRoot := "",
    err := some "pods \"web-1\" is forbidden: violates PodSecurity \"restricted:latest\"" }

/-- First elevation: the shell-missing command result arrives. -/
def c2Step1 : StepResult := stepCmdResult w0 shellModel0 msgNoShell

/-- Second elevation in the same session: the provisioning attempt fails
with a policy marker. -/
def c2Step2 : StepResult := stepDebugResult c2Step1.world c2Step1.model msgPolicyBlocked

/-- A cluster where the debug container never reaches the running state
(and the echo never succeeds). -/
def dwNeverReady : DebugWorld :=
  { getPodErr := none, replaceErr := none, running := fun _ => false,
    echoOk := fun _ => false, nsenterOut := "", nsenterErr := false }

/-- The stubbed Gateway of the autocomplete test: the first-match glob
for token `re` under `/app/` answers `/app/responses`, and the directory
test for it answers `DIR`; everything else errors. -/
def c7Stub : Executor :=
  ⟨fun c =>
    if c = listCmdFor "/app/" "re" then
      { stdout := "/app/responses", stderr := "", errored := false }
    else if c = checkDirCmdFor "/app/" "responses" then
      { stdout := "DIR", stderr := "", errored := false }
    else { stdout := "", stderr := "", errored := true }⟩

/-- A session with the policy elevated and its original value recorded. -/
def mElevated : Model :=
  { shellModel0 with changedPodSecurityPolicy := true,
                     originalPodSecurityPolicy := "baseline" }

/-- One output line appended, so the valid copy bound is 1-1. -/
def c6Model : Model := appendOutput shellModel0 "hello"

/-- A session that ran `ls`, received its result, and is browsing history
(the up key moved the cursor onto entry 0); the user then types `clear`. -/
def c10AfterLs : Model :=
  (stepCmdResult w0 (handleCommand env0 { shellModel0 with inputValue := "ls" }).1
    { cmd := "ls", stdout := "bin", stderr := "", err := none, took := "5ms" }).model

def c10Browsing : Model := handleHistoryUp c10AfterLs

/-! ## Helper lemmas -/

@[simp] theorem appendOutput_nsName (m : Model) (s : String) :
    (appendOutput m s).nsName = m.nsName := by
  unfold appendOutput; split <;> rfl

@[simp] theorem appendOutput_podName (m : Model) (s : String) :
    (appendOutput m s).podName = m.podName := by
  unfold appendOutput; split <;> rfl

@[simp] theorem appendOutput_container (m : Model) (s : String) :
    (appendOutput m s).container = m.container := by
  unfold appendOutput; split <;> rfl

@[simp] theorem appendOutput_currentDir (m : Model) (s : String) :
    (appendOutput m s).currentDir = m.currentDir := by
  unfold appendOutput; split <;> rfl

@[simp] theorem appendOutput_history (m : Model) (s : String) :
    (appendOutput m s).history = m.history := by
  unfold appendOutput; split <;> rfl

@[simp] theorem appendOutput_histIdx (m : Model) (s : String) :
    (appendOutput m s).histIdx = m.histIdx := by
  unfold appendOutput; split <;> rfl

@[simp] theorem appendOutput_original (m : Model) (s : String) :
    (appendOutput m s).originalPodSecurityPolicy = m.originalPodSecurityPolicy := by
  unfold appendOutput; split <;> rfl

@[simp] theorem appendOutput_changed (m : Model) (s : String) :
    (appendOutput m s).changedPodSecurityPolicy = m.changedPodSecurityPolicy := by
  unfold appendOutput; split <;> rfl

@[simp] theorem appendOutput_useDebug (m : Model) (s : String) :
    (appendOutput m s).useDebugContainer = m.useDebugContainer := by
  unfold appendOutput; split <;> rfl

@[simp] theorem appendOutput_empty (m : Model) : appendOutput m "" = m := by
  unfold appendOutput; rfl

@[simp] theorem histAppendDedup_currentDir (m : Model) (c : String) :
    (histAppendDedup m c).currentDir = m.currentDir := by
  unfold histAppendDedup; split <;> rfl

@[simp] theorem histAppendDedup_histIdx (m : Model) (c : String) :
    (histAppendDedup m c).histIdx = m.histIdx := by
  unfold histAppendDedup; split <;> rfl

theorem splitOnPred_no_match (p : Char → Bool) (l : List Char)
    (h : ∀ c ∈ l, p c = false) : splitOnPred p l = [l] := by
  induction l with
  | nil => rfl
  | cons c t ih =>
    have hc : p c = false := h c (List.mem_cons_self c t)
    have ht : splitOnPred p t = [t] := ih (fun d hd => h d (List.mem_cons_of_mem c hd))
    simp [splitOnPred, ht, hc]

theorem appendOutput_single (m : Model) (s : String)
    (hne : s.data ≠ []) (hnl : ∀ c ∈ s.data, c ≠ '\n') :
    (appendOutput m s).outputLines = m.outputLines ++ [s] := by
  have hs : ¬ s = "" := by
    intro e
    apply hne
    rw [e]
  have h1 : splitOnPred (fun c => c == '\n') s.data = [s.data] := by
    apply splitOnPred_no_match
    intro c hc
    simpa using hnl c hc
  have h2 : s.data.isEmpty = false := by
    cases hd : s.data with
    | nil => exact absurd hd hne
    | cons a t => rfl
  unfold appendOutput
  rw [if_neg hs, h1]
  simp [h2]

theorem policyChangingLine_data (p : String) :
    (policyChangingLine p).data =
      ("Namespace policy is \x27".data ++ p.data) ++
        "\x27, changing to \x27privileged\x27...".data := rfl

theorem policyChangingLine_ne_nil (p : String) : (policyChangingLine p).data ≠ [] := by
  rw [policyChangingLine_data]
  intro h
  rcases List.append_eq_nil.mp h with ⟨h1, _⟩
  rcases List.append_eq_nil.mp h1 with ⟨h2, _⟩
  exact absurd h2 (by decide)

theorem policyChangingLine_no_newline (p : String)
    (hp : ∀ c ∈ p.data, c ≠ '\n') :
    ∀ c ∈ (policyChangingLine p).data, c ≠ '\n' := by
  have lit1 : ∀ c ∈ "Namespace policy is \x27".data, c ≠ '\n' := by decide
  have lit2 : ∀ c ∈ "\x27, changing to \x27privileged\x27...".data, c ≠ '\n' := by decide
  rw [policyChangingLine_data]
  intro c hc
  rcases List.mem_append.mp hc with h | h
  · rcases List.mem_append.mp h with h1 | h1
    · exact lit1 c h1
    · exact hp c h1
  · exact lit2 c h

/-- Shared characterisation of the ShellMissing branch of the
`CmdResultMsg` case, for a healthy policy gateway: exactly one
provisioning effect is scheduled, the output gains only the fallback
notification lines (no result block), and when elevation happens the
original is recorded and the remote label pinned to `privileged`. -/
theorem stepCmdResult_fallback (w : World) (m : Model) (msg : CmdResult)
    (hc : shellMissingCond msg.err m.useDebugContainer msg.stderr = true)
    (hg : w.getErr = none) (hs : w.setErr = none)
    (hnl : ∀ c ∈ w.nsPolicy.data, c ≠ '\n') :
    (stepCmdResult w m msg).effects =
      [Effect.createDebug m.nsName m.podName m.container] ∧
    (stepCmdResult w m msg).model.outputLines =
      m.outputLines ++
        (if w.nsPolicy = "privileged" then [noShellLine]
         else [noShellLine, policyChangingLine w.nsPolicy, policyChangedLine,
               policyRestoreLine]) ∧
    (w.nsPolicy ≠ "privileged" →
      (stepCmdResult w m msg).model.originalPodSecurityPolicy = w.nsPolicy ∧
      (stepCmdResult w m msg).model.changedPodSecurityPolicy = true ∧
      (stepCmdResult w m msg).world.nsPolicy = "privileged") := by
  have e1 : ∀ mm : Model, (appendOutput mm noShellLine).outputLines =
      mm.outputLines ++ [noShellLine] :=
    fun mm => appendOutput_single mm _ (by decide) (by decide)
  have e2 : ∀ mm : Model, (appendOutput mm (policyChangingLine w.nsPolicy)).outputLines =
      mm.outputLines ++ [policyChangingLine w.nsPolicy] :=
    fun mm => appendOutput_single mm _ (policyChangingLine_ne_nil _)
      (policyChangingLine_no_newline _ hnl)
  have e3 : ∀ mm : Model, (appendOutput mm policyChangedLine).outputLines =
      mm.outputLines ++ [policyChangedLine] :=
    fun mm => appendOutput_single mm _ (by decide) (by decide)
  have e4 : ∀ mm : Model, (appendOutput mm policyRestoreLine).outputLines =
      mm.outputLines ++ [policyRestoreLine] :=
    fun mm => appendOutput_single mm _ (by decide) (by decide)
  by_cases hp : w.nsPolicy = "privileged"
  · refine ⟨?_, ?_, ?_⟩ <;>
      simp [stepCmdResult, hc, getPodSecurityPolicyW, hg, render, hp, e1]
  · have hp2 : (w.nsPolicy ≠ "privileged") = True := by simp [hp]
    refine ⟨?_, ?_, ?_⟩ <;>
      simp [stepCmdResult, hc, getPodSecurityPolicyW, hg, setPodSecurityPolicyW, hs,
        render, hp, hp2, e1, e2, e3, e4]

theorem getPolicyFailLine_ne_nil (e : String) : (getPolicyFailLine e).data ≠ [] := by
  intro h
  have h2 : "Failed to get current policy: ".data ++ e.data = [] := h
  rcases List.append_eq_nil.mp h2 with ⟨h3, _⟩
  exact absurd h3 (by decide)

theorem getPolicyFailLine_no_newline (e : String) (he : ∀ c ∈ e.data, c ≠ '\n') :
    ∀ c ∈ (getPolicyFailLine e).data, c ≠ '\n' := by
  have lit : ∀ c ∈ "Failed to get current policy: ".data, c ≠ '\n' := by decide
  intro c hcm
  have hcm2 : c ∈ "Failed to get current policy: ".data ++ e.data := hcm
  rcases List.mem_append.mp hcm2 with h | h
  · exact lit c h
  · exact he c h

theorem setPolicyFailLine_ne_nil (e : String) : (setPolicyFailLine e).data ≠ [] := by
  intro h
  have h2 : "Failed to change policy: ".data ++ e.data = [] := h
  rcases List.append_eq_nil.mp h2 with ⟨h3, _⟩
  exact absurd h3 (by decide)

theorem setPolicyFailLine_no_newline (e : String) (he : ∀ c ∈ e.data, c ≠ '\n') :
    ∀ c ∈ (setPolicyFailLine e).data, c ≠ '\n' := by
  have lit : ∀ c ∈ "Failed to change policy: ".data, c ≠ '\n' := by decide
  intro c hcm
  have hcm2 : c ∈ "Failed to change policy: ".data ++ e.data := hcm
  rcases List.mem_append.mp hcm2 with h | h
  · exact lit c h
  · exact he c h

/-- A cluster whose policy-label read fails (e.g. no permission or no
connectivity); the write would succeed. -/
def wGetFails : World :=
  { nsPolicy := "baseline", getErr := some "connection refused", setErr := none }

/-- C4 — counterexample to "exactly one debug-container provisioning
attempt is triggered ... no error block for that result is appended":
when the policy-label read fails, the shell-missing result is classified
but the handler appends the policy-failure error line and returns with
zero provisioning attempts. -/
theorem c4_counterexample :
    shellMissingCond msgNoShell.err shellModel0.useDebugContainer msgNoShell.stderr = true ∧
    (stepCmdResult wGetFails shellModel0 msgNoShell).effects = [] ∧
    (stepCmdResult wGetFails shellModel0 msgNoShell).model.outputLines =
      [noShellLine, getPolicyFailLine "connection refused"] := by
  decide

/-- C4 (amended) — every failed non-debug command result whose stderr
contains "executable file not found" is classified as ShellMissing
exactly once and its normal result display (command line, OK/ERR tag,
stdout, stderr) is suppressed in every case; exactly one provisioning
attempt is scheduled precisely when the policy negotiation succeeds (the
label read succeeds and, unless the label already is `privileged`, the
write succeeds) — when the read or the write fails, zero provisioning
attempts are scheduled and a policy-failure error line is appended
instead.  The output gains only the branch notification lines, never the
result block. -/
theorem c4_shell_missing_fallback_cases (w : World) (m : Model) (msg : CmdResult)
    (he : msg.err.isSome = true) (hd : m.useDebugContainer = false)
    (hm : containsSubstr msg.stderr "executable file not found" = true)
    (hnl : ∀ c ∈ w.nsPolicy.data, c ≠ '\n')
    (hge : ∀ e, w.getErr = some e → ∀ c ∈ e.data, c ≠ '\n')
    (hse : ∀ e, w.setErr = some e → ∀ c ∈ e.data, c ≠ '\n') :
    shellMissingCond msg.err m.useDebugContainer msg.stderr = true ∧
    (stepCmdResult w m msg).effects =
      (if w.getErr = none ∧ (w.nsPolicy = "privileged" ∨ w.setErr = none)
       then [Effect.createDebug m.nsName m.podName m.container]
       else []) ∧
    (stepCmdResult w m msg).model.outputLines =
      m.outputLines ++
        (match w.getErr with
         | some e => [noShellLine, getPolicyFailLine e]
         | none =>
           if w.nsPolicy = "privileged" then [noShellLine]
           else
             match w.setErr with
             | some e => [noShellLine, policyChangingLine w.nsPolicy, setPolicyFailLine e,
                 permissionHintLine]
             | none => [noShellLine, policyChangingLine w.nsPolicy, policyChangedLine,
                 policyRestoreLine]) := by
  have hc : shellMissingCond msg.err m.useDebugContainer msg.stderr = true := by
    simp [shellMissingCond, he, hd, hm]
  have e1 : ∀ mm : Model, (appendOutput mm noShellLine).outputLines =
      mm.outputLines ++ [noShellLine] :=
    fun mm => appendOutput_single mm _ (by decide) (by decide)
  refine ⟨hc, ?_, ?_⟩
  · cases hg : w.getErr with
    | some e => simp [stepCmdResult, hc, getPodSecurityPolicyW, hg, render]
    | none =>
      by_cases hp : w.nsPolicy = "privileged"
      · simp [stepCmdResult, hc, getPodSecurityPolicyW, hg, render, hp]
      · cases hs : w.setErr with
        | some e2 =>
          simp [stepCmdResult, hc, getPodSecurityPolicyW, setPodSecurityPolicyW, hg, hs,
            render, hp]
        | none =>
          simp [stepCmdResult, hc, getPodSecurityPolicyW, setPodSecurityPolicyW, hg, hs,
            render, hp]
  · cases hg : w.getErr with
    | some e =>
      have eG : ∀ mm : Model, (appendOutput mm (getPolicyFailLine e)).outputLines =
          mm.outputLines ++ [getPolicyFailLine e] :=
        fun mm => appendOutput_single mm _ (getPolicyFailLine_ne_nil e)
          (getPolicyFailLine_no_newline e (hge e hg))
      simp [stepCmdResult, hc, getPodSecurityPolicyW, hg, render, e1, eG]
    | none =>
      by_cases hp : w.nsPolicy = "privileged"
      · simp [stepCmdResult, hc, getPodSecurityPolicyW, hg, render, hp, e1]
      · have e2 : ∀ mm : Model,
            (appendOutput mm (policyChangingLine w.nsPolicy)).outputLines =
              mm.outputLines ++ [policyChangingLine w.nsPolicy] :=
          fun mm => appendOutput_single mm _ (policyChangingLine_ne_nil _)
            (policyChangingLine_no_newline _ hnl)
        have hp2 : (w.nsPolicy ≠ "privileged") = True := by simp [hp]
        cases hs : w.setErr with
        | some er =>
          have eS : ∀ mm : Model, (appendOutput mm (setPolicyFailLine er)).outputLines =
              mm.outputLines ++ [setPolicyFailLine er] :=
            fun mm => appendOutput_single mm _ (setPolicyFailLine_ne_nil er)
              (setPolicyFailLine_no_newline er (hse er hs))
          have eH : ∀ mm : Model, (appendOutput mm permissionHintLine).outputLines =
              mm.outputLines ++ [permissionHintLine] :=
            fun mm => appendOutput_single mm _ (by decide) (by decide)
          simp [stepCmdResult, hc, getPodSecurityPolicyW, setPodSecurityPolicyW, hg, hs,
            render, hp, hp2, e1, e2, eS, eH]
        | none =>
          have e3 : ∀ mm : Model, (appendOutput mm policyChangedLine).outputLines =
              mm.outputLines ++ [policyChangedLine] :=
            fun mm => appendOutput_single mm _ (by decide) (by decide)
          have e4 : ∀ mm : Model, (appendOutput mm policyRestoreLine).outputLines =
              mm.outputLines ++ [policyRestoreLine] :=
            fun mm => appendOutput_single mm _ (by decide) (by decide)
          simp [stepCmdResult, hc, getPodSecurityPolicyW, setPodSecurityPolicyW, hg, hs,
            render, hp, hp2, e1, e2, e3, e4]

/-- C4 witness: the healthy cluster `w0` (read and write succeed), the
fresh shell session and the concrete shell-missing result. -/
theorem c4_witness :
    shellMissingCond msgNoShell.err shellModel0.useDebugContainer msgNoShell.stderr = true ∧
    (stepCmdResult w0 shellModel0 msgNoShell).effects =
      (if w0.getErr = none ∧ (w0.nsPolicy = "privileged" ∨ w0.setErr = none)
       then [Effect.createDebug shellModel0.nsName shellModel0.podName shellModel0.container]
       else []) ∧
    (stepCmdResult w0 shellModel0 msgNoShell).model.outputLines =
      shellModel0.outputLines ++
        (match w0.getErr with
         | some e => [noShellLine, getPolicyFailLine e]
         | none =>
           if w0.nsPolicy = "privileged" then [noShellLine]
           else
             match w0.setErr with
             | some e => [noShellLine, policyChangingLine w0.nsPolicy, setPolicyFailLine e,
                 permissionHintLine]
             | none => [noShellLine, policyChangingLine w0.nsPolicy, policyChangedLine,
                 policyRestoreLine]) :=
  c4_shell_missing_fallback_cases w0 shellModel0 msgNoShell (by decide) (by decide)
    (by decide) (by decide) (by intro e h; simp [w0] at h) (by intro e h; simp [w0] at h)

/-- C8 — the third marker in the classifier is the bare substring
"not found": every failed non-debug result whose stderr contains it
anywhere is reclassified as ShellMissing and (with a working policy
gateway) triggers the provisioning fallback — including an ordinary
mistyped command in a container that does have a shell. -/
theorem c8_bare_not_found_triggers_fallback (w : World) (m : Model) (msg : CmdResult)
    (hg : w.getErr = none) (hs : w.setErr = none)
    (hnl : ∀ c ∈ w.nsPolicy.data, c ≠ '\n')
    (he : msg.err.isSome = true) (hd : m.useDebugContainer = false)
    (hm : containsSubstr msg.stderr "not found" = true) :
    shellMissingCond msg.err m.useDebugContainer msg.stderr = true ∧
    (stepCmdResult w m msg).effects =
      [Effect.createDebug m.nsName m.podName m.container] := by
  have hc : shellMissingCond msg.err m.useDebugContainer msg.stderr = true := by
    simp [shellMissingCond, he, hd, hm]
  obtain ⟨h1, _, _⟩ := stepCmdResult_fallback w m msg hc hg hs hnl
  exact ⟨hc, h1⟩

/-- A mistyped command in a container that does have a shell: the shell
itself reports "sh: foo: not found" on stderr. -/
def msgMistyped : CmdResult :=
  { cmd := "foo", stdout := "", stderr := "sh: foo: not found",
    err := some "command terminated with exit code 127", took := "12ms" }

/-- C8 witness: the ordinary mistyped-command failure still triggers the
debug-container fallback. -/
theorem c8_witness :
    shellMissingCond msgMistyped.err shellModel0.useDebugContainer msgMistyped.stderr = true ∧
    (stepCmdResult w0 shellModel0 msgMistyped).effects =
      [Effect.createDebug shellModel0.nsName shellModel0.podName shellModel0.container] :=
  c8_bare_not_found_triggers_fallback w0 shellModel0 msgMistyped rfl rfl (by decide)
    (by decide) (by decide) (by decide)

/-- C1 (amended) — for every session in which elevation occurred
(changed flag set), when the TUI run returns without error the teardown
issues exactly one policy-label restore call, carrying the recorded
original value; and when the recorded original was absent (empty string)
that call is the label-removal form, never a set-to-empty.  (When the
TUI run itself fails, `main` exits with status 1 without restoring — see
the counterexample.) -/
theorem c1_restore_on_normal_exit (m : Model) (resp : String)
    (h : m.changedPodSecurityPolicy = true) :
    (mainTeardown false m resp).1.filter isPolicyLabelCall =
      [setPodSecurityPolicyArgs m.nsName m.originalPodSecurityPolicy] ∧
    (m.originalPodSecurityPolicy = "" →
      setPodSecurityPolicyArgs m.nsName m.originalPodSecurityPolicy =
        ["label", "namespace", m.nsName, "pod-security.kubernetes.io/enforce-"]) ∧
    (mainTeardown false m resp).2 = 0 := by
  refine ⟨?_, ?_, ?_⟩
  · by_cases hd : m.debugContainer ≠ "" ∧ lowerStr (trimStr resp) = "y" <;>
      by_cases hz : m.originalPodSecurityPolicy = "" <;>
        simp [mainTeardown, h, hd, setPodSecurityPolicyArgs, hz, isPolicyLabelCall]
  · intro hz
    simp [setPodSecurityPolicyArgs, hz]
  · simp [mainTeardown]

/-- C1 witness: a normally ending session whose elevation recorded an
absent original label — the single restore call is the removal form. -/
theorem c1_witness :
    (mainTeardown false { mElevated with originalPodSecurityPolicy := "" } "n").1.filter
        isPolicyLabelCall =
      [setPodSecurityPolicyArgs "prod" ""] ∧
    (setPodSecurityPolicyArgs "prod" "" =
      ["label", "namespace", "prod", "pod-security.kubernetes.io/enforce-"]) ∧
    (mainTeardown false { mElevated with originalPodSecurityPolicy := "" } "n").2 = 0 := by
  obtain ⟨h1, h2, h3⟩ :=
    c1_restore_on_normal_exit { mElevated with originalPodSecurityPolicy := "" } "n" rfl
  exact ⟨h1, h2 rfl, h3⟩

theorem pollLoopAux_some_ready (dw : DebugWorld) :
    ∀ fuel i j, pollLoopAux dw i fuel = some j →
      dw.running j = true ∧ dw.echoOk j = true := by
  intro fuel
  induction fuel with
  | zero => intro i j h; exact absurd h (by simp [pollLoopAux])
  | succ n ih =>
    intro i j h
    rw [pollLoopAux] at h
    by_cases hr : dw.running i && dw.echoOk i
    · rw [if_pos hr] at h
      cases h
      exact ⟨(Bool.and_eq_true _ _).mp hr |>.1, (Bool.and_eq_true _ _).mp hr |>.2⟩
    · rw [if_neg hr] at h
      exact ih (i + 1) j h

theorem pollLoopAux_some_lt (dw : DebugWorld) :
    ∀ fuel i j, pollLoopAux dw i fuel = some j → j < i + fuel := by
  intro fuel
  induction fuel with
  | zero => intro i j h; exact absurd h (by simp [pollLoopAux])
  | succ n ih =>
    intro i j h
    rw [pollLoopAux] at h
    by_cases hr : dw.running i && dw.echoOk i
    · rw [if_pos hr] at h
      cases h
      omega
    · rw [if_neg hr] at h
      have := ih (i + 1) j h
      omega

theorem pollAttemptsUsed_le (dw : DebugWorld) :
    pollAttemptsUsed dw ≤ pollMaxAttempts := by
  rw [pollAttemptsUsed]
  cases hf : pollFirstReady dw with
  | none => exact Nat.le_refl _
  | some j =>
    have := pollLoopAux_some_lt dw pollMaxAttempts 0 j hf
    show j + 1 ≤ pollMaxAttempts
    omega

theorem createDebugContainerM_ok (dw : DebugWorld) (name : String)
    (hg : dw.getPodErr = none) (hr : dw.replaceErr = none) :
    (createDebugContainerM dw name).attemptsUsed = pollAttemptsUsed dw ∧
    (createDebugContainerM dw name).probeRan = true ∧
    ∃ root, (createDebugContainerM dw name).outcome = Except.ok (name, root) := by
  unfold createDebugContainerM
  simp only [hg, hr]
  split
  · exact ⟨rfl, rfl, "NSENTER:1", rfl⟩
  · exact ⟨rfl, rfl, "/proc/1/root", rfl⟩

/-- C3 (amended) — the readiness poll is bounded by exactly 30 attempts
at a fixed 500ms interval, and an attempt counts as ready precisely when
the container reports a running state and the trivial remote echo
succeeds; but exhausting the budget is not terminal: whenever the
pod read and the ephemeral-container replace call succeeded, control
falls through to the nsenter strategy probe and provisioning returns
successfully (debug mode is then adopted) even if no attempt ever
observed readiness. -/
theorem c3_poll_budget (dw : DebugWorld) (name : String) :
    pollMaxAttempts = 30 ∧ pollIntervalMs = 500 ∧
    (createDebugContainerM dw name).attemptsUsed ≤ pollMaxAttempts ∧
    (∀ i, pollFirstReady dw = some i →
      dw.running i = true ∧ dw.echoOk i = true ∧ i < pollMaxAttempts) ∧
    (dw.getPodErr = none → dw.replaceErr = none →
      (createDebugContainerM dw name).probeRan = true ∧
      (pollFirstReady dw = none →
        (createDebugContainerM dw name).attemptsUsed = pollMaxAttempts) ∧
      ∃ root, (createDebugContainerM dw name).outcome = Except.ok (name, root)) := by
  refine ⟨rfl, rfl, ?_, ?_, ?_⟩
  · cases hg : dw.getPodErr with
    | some e => simp [createDebugContainerM, hg]
    | none =>
      cases hr : dw.replaceErr with
      | some e => simp [createDebugContainerM, hg, hr]
      | none =>
        have h1 := (createDebugContainerM_ok dw name hg hr).1
        rw [h1]
        exact pollAttemptsUsed_le dw
  · intro i hi
    have h1 := pollLoopAux_some_ready dw pollMaxAttempts 0 i hi
    have h2 := pollLoopAux_some_lt dw pollMaxAttempts 0 i hi
    exact ⟨h1.1, h1.2, by omega⟩
  · intro hg hr
    obtain ⟨h1, h2, h3⟩ := createDebugContainerM_ok dw name hg hr
    refine ⟨h2, ?_, h3⟩
    intro hf
    rw [h1, pollAttemptsUsed, hf]

/-- C3 witness: the never-ready cluster runs the full 30-attempt budget
and still proceeds to the probe and a successful outcome. -/
theorem c3_witness :
    pollMaxAttempts = 30 ∧ pollIntervalMs = 500 ∧
    (createDebugContainerM dwNeverReady "d").attemptsUsed ≤ pollMaxAttempts ∧
    (∀ i, pollFirstReady dwNeverReady = some i →
      dwNeverReady.running i = true ∧ dwNeverReady.echoOk i = true ∧ i < pollMaxAttempts) ∧
    (dwNeverReady.getPodErr = none → dwNeverReady.replaceErr = none →
      (createDebugContainerM dwNeverReady "d").probeRan = true ∧
      (pollFirstReady dwNeverReady = none →
        (createDebugContainerM dwNeverReady "d").attemptsUsed = pollMaxAttempts) ∧
      ∃ root, (createDebugContainerM dwNeverReady "d").outcome =
        Except.ok ("d", root)) :=
  c3_poll_budget dwNeverReady "d"

theorem listStartsWith_iff (p : List Char) :
    ∀ l : List Char, listStartsWith l p = true ↔ ∃ t, l = p ++ t := by
  induction p with
  | nil =>
    intro l
    constructor
    · intro _; exact ⟨l, rfl⟩
    · intro _; cases l <;> rfl
  | cons b bs ih =>
    intro l
    cases l with
    | nil =>
      constructor
      · intro h; exact absurd h (by simp [listStartsWith])
      · rintro ⟨t, ht⟩; exact absurd ht.symm (List.cons_ne_nil _ _)
    | cons a as =>
      constructor
      · intro h
        have hsplit := (Bool.and_eq_true _ _).mp h
        have hab : a = b := by simpa using hsplit.1
        obtain ⟨t, ht⟩ := (ih as).mp hsplit.2
        exact ⟨t, by rw [hab, ht]; rfl⟩
      · rintro ⟨t, ht⟩
        injection ht with h1 h2
        have h3 := (ih as).mpr ⟨t, h2⟩
        simp [listStartsWith, h1, h3]

/-- Submitting a line that is a `cd` command (with no surrounding
whitespace) dispatches to `handleCdCommand` after the submission-standard
input clear and cursor reset. -/
theorem handleCommand_cd_dispatch (env : ClipboardEnv) (m : Model)
    (ht : trimStr m.inputValue = m.inputValue)
    (hcd : strStartsWith m.inputValue "cd " = true ∨ m.inputValue = "cd") :
    handleCommand env m =
      (handleCdCommand { m with inputValue := "", histIdx := -1 } m.inputValue, []) := by
  rcases hcd with h | h
  · obtain ⟨t, hdata⟩ := (listStartsWith_iff "cd ".data m.inputValue.data).mp h
    have hne : ¬ m.inputValue = "" := by
      intro e
      rw [e] at hdata
      have h2 : ([] : List Char) = 'c' :: 'd' :: ' ' :: t := hdata
      exact absurd h2.symm (List.cons_ne_nil _ _)
    have hclear : ¬ m.inputValue = "clear" := by
      intro e
      rw [e] at hdata
      have h2 : ('c' :: 'l' :: 'e' :: 'a' :: 'r' :: [] : List Char) =
          'c' :: 'd' :: ' ' :: t := hdata
      injection h2 with _ h3
      injection h3 with h4 _
      exact absurd h4 (by decide)
    have hquit : ¬ m.inputValue = "/quit" := by
      intro e
      rw [e] at hdata
      have h2 : ('/' :: 'q' :: 'u' :: 'i' :: 't' :: [] : List Char) =
          'c' :: 'd' :: ' ' :: t := hdata
      injection h2 with h3 _
      exact absurd h3 (by decide)
    have hcopy : ¬ strStartsWith m.inputValue "/copy " = true := by
      intro hc
      obtain ⟨u, hu⟩ := (listStartsWith_iff "/copy ".data m.inputValue.data).mp hc
      rw [hdata] at hu
      have h2 : ('c' :: 'd' :: ' ' :: t : List Char) =
          '/' :: 'c' :: 'o' :: 'p' :: 'y' :: ' ' :: u := hu
      injection h2 with h3 _
      exact absurd h3 (by decide)
    simp only [handleCommand]
    rw [ht, if_neg hne, if_neg hclear, if_neg hquit, if_neg hcopy, if_pos (Or.inl h)]
  · simp only [handleCommand]
    rw [ht, h, if_neg (by decide), if_neg (by decide), if_neg (by decide),
      if_neg (by decide), if_pos (Or.inr rfl)]

theorem handleCdCommand_currentDir (m : Model) (c : String) :
    (handleCdCommand m c).currentDir = cdStep m.currentDir (cdArgOf c) := by
  simp [handleCdCommand]

theorem submitAll_cd (env : ClipboardEnv) :
    ∀ (lines : List String) (m : Model),
      (∀ l ∈ lines, trimStr l = l ∧ (strStartsWith l "cd " = true ∨ l = "cd")) →
      (submitAll env m lines).currentDir =
        lines.foldl (fun d l => cdStep d (cdArgOf l)) m.currentDir := by
  intro lines
  induction lines with
  | nil => intro m _; rfl
  | cons l ls ih =>
    intro m h
    have hl := h l (List.mem_cons_self l ls)
    have hrest : ∀ x ∈ ls, trimStr x = x ∧ (strStartsWith x "cd " = true ∨ x = "cd") :=
      fun x hx => h x (List.mem_cons_of_mem l hx)
    have hdisp := handleCommand_cd_dispatch env { m with inputValue := l }
      (by simpa using hl.1) (by simpa using hl.2)
    have e : ((handleCommand env { m with inputValue := l }).1).currentDir =
        cdStep m.currentDir (cdArgOf l) := by
      rw [hdisp]
      exact handleCdCommand_currentDir _ _
    calc (submitAll env m (l :: ls)).currentDir
        = (submitAll env ((handleCommand env { m with inputValue := l }).1) ls).currentDir :=
          rfl
      _ = ls.foldl (fun d x => cdStep d (cdArgOf x))
            ((handleCommand env { m with inputValue := l }).1).currentDir := ih _ hrest
      _ = ls.foldl (fun d x => cdStep d (cdArgOf x)) (cdStep m.currentDir (cdArgOf l)) := by
          rw [e]
      _ = (l :: ls).foldl (fun d x => cdStep d (cdArgOf x)) m.currentDir := rfl

/-- C5 — for any sequence of submitted `cd` lines starting from the home
state, the resulting working directory equals the sequential fold of the
step semantics: empty argument or `~` resets to home, a leading `/`
replaces the whole value, and any other argument joins onto the current
value with `/`. -/
theorem c5_cd_fold (env : ClipboardEnv) (m : Model) (hm : m.currentDir = "")
    (lines : List String)
    (h : ∀ l ∈ lines, trimStr l = l ∧ (strStartsWith l "cd " = true ∨ l = "cd")) :
    (submitAll env m lines).currentDir =
      lines.foldl (fun d l => cdStep d (cdArgOf l)) "" := by
  rw [submitAll_cd env lines m h, hm]

/-- C5 witness: a session issuing a relative `cd`, an absolute `cd`, a
reset and another relative `cd`. -/
theorem c5_witness :
    (submitAll env0 shellModel0 ["cd app", "cd /var/log", "cd", "cd sub"]).currentDir =
      ["cd app", "cd /var/log", "cd", "cd sub"].foldl
        (fun d l => cdStep d (cdArgOf l)) "" :=
  c5_cd_fold env0 shellModel0 rfl _ (by decide)

theorem natDigitChar_ne_newline (k : Nat) : natDigitChar k ≠ '\n' := by
  unfold natDigitChar
  split_ifs <;> decide

theorem natToStrAux_no_newline :
    ∀ fuel n, ∀ c ∈ natToStrAux fuel n, c ≠ '\n' := by
  intro fuel
  induction fuel with
  | zero => intro n c hc; exact absurd hc (by simp [natToStrAux])
  | succ f ih =>
    intro n c hc
    rw [natToStrAux] at hc
    by_cases hn : n < 10
    · rw [if_pos hn] at hc
      have hce : c = natDigitChar n := by simpa using hc
      rw [hce]
      exact natDigitChar_ne_newline n
    · rw [if_neg hn] at hc
      rcases List.mem_append.mp hc with hmem | hmem
      · exact ih (n / 10) c hmem
      · have hce : c = natDigitChar (n % 10) := by simpa using hmem
        rw [hce]
        exact natDigitChar_ne_newline _

theorem invalidRangeLine_data (n : Nat) :
    (invalidRangeLine n).data =
      "Invalid range. Available lines: 1-".data ++ natToStrAux (n + 1) n := rfl

theorem invalidRangeLine_ne_nil (n : Nat) : (invalidRangeLine n).data ≠ [] := by
  rw [invalidRangeLine_data]
  intro h
  rcases List.append_eq_nil.mp h with ⟨h1, _⟩
  exact absurd h1 (by decide)

theorem invalidRangeLine_no_newline (n : Nat) :
    ∀ c ∈ (invalidRangeLine n).data, c ≠ '\n' := by
  have lit : ∀ c ∈ "Invalid range. Available lines: 1-".data, c ≠ '\n' := by decide
  intro c hc
  rw [invalidRangeLine_data] at hc
  rcases List.mem_append.mp hc with h | h
  · exact lit c h
  · exact natToStrAux_no_newline (n + 1) n c h

theorem appendOutput_invalidLine (m : Model) (n : Nat) :
    (appendOutput m (invalidRangeLine n)).outputLines =
      m.outputLines ++ [invalidRangeLine n] :=
  appendOutput_single _ _ (invalidRangeLine_ne_nil n) (invalidRangeLine_no_newline n)

/-- C6 (amended) — for an output log of N lines, a `/copy` request
parsing to the range (a, b) with 1 ≤ a ≤ b ≤ N sends exactly lines a..b
(1-based inclusive) joined by newline to the clipboard program; an
out-of-range request (a < 1, b < a, or b > N) sends nothing to the
clipboard and, apart from appending exactly one error line reporting the
valid bound 1-N to the output log, changes no other session state: the
pre-existing lines, the history, the working directory and the history
cursor stay as they were. -/
theorem c6_copy_range (env : ClipboardEnv) (m : Model) (cmdline : String)
    (a b : Int) (p : String)
    (hp : parseCopyRange (trimStr (trimPrefixStr cmdline "/copy")) = (a, b))
    (hprog : env.prog = some p) (hrun : env.runOk = true) :
    (1 ≤ a → a ≤ b → b ≤ (m.outputLines.length : Int) →
      (handleCopyCommand env m cmdline).2 =
        [Effect.clipboard p
          (joinNL ((m.outputLines.drop (a - 1).toNat).take (b - a + 1).toNat))]) ∧
    ((a < 1 ∨ b < a ∨ (m.outputLines.length : Int) < b) →
      (handleCopyCommand env m cmdline).2 = [] ∧
      (handleCopyCommand env m cmdline).1.outputLines =
        m.outputLines ++ [invalidRangeLine m.outputLines.length] ∧
      (handleCopyCommand env m cmdline).1.history = m.history ∧
      (handleCopyCommand env m cmdline).1.currentDir = m.currentDir ∧
      (handleCopyCommand env m cmdline).1.histIdx = m.histIdx) := by
  constructor
  · intro h1 h2 h3
    simp only [handleCopyCommand, hp]
    rw [if_neg (by push_neg; refine ⟨by omega, by omega, by omega⟩), hprog]
    simp [hrun]
  · intro h
    simp only [handleCopyCommand, hp]
    rw [if_pos (by omega)]
    refine ⟨rfl, ?_, by simp, by simp, by simp⟩
    exact appendOutput_invalidLine m m.outputLines.length

/-- Three output lines appended one by one: the valid bound is 1-3. -/
def c6Model3 : Model :=
  appendOutput (appendOutput (appendOutput shellModel0 "l1") "l2") "l3"

/-- C6 witness: `/copy 2,3` on a three-line log through a working
clipboard environment. -/
theorem c6_witness :
    ((1 : Int) ≤ 2 → (2 : Int) ≤ 3 → (3 : Int) ≤ (c6Model3.outputLines.length : Int) →
      (handleCopyCommand env0 c6Model3 "/copy 2,3").2 =
        [Effect.clipboard "xclip"
          (joinNL ((c6Model3.outputLines.drop ((2 : Int) - 1).toNat).take
            ((3 : Int) - 2 + 1).toNat))]) ∧
    (((2 : Int) < 1 ∨ (3 : Int) < 2 ∨ (c6Model3.outputLines.length : Int) < 3) →
      (handleCopyCommand env0 c6Model3 "/copy 2,3").2 = [] ∧
      (handleCopyCommand env0 c6Model3 "/copy 2,3").1.outputLines =
        c6Model3.outputLines ++ [invalidRangeLine c6Model3.outputLines.length] ∧
      (handleCopyCommand env0 c6Model3 "/copy 2,3").1.history = c6Model3.history ∧
      (handleCopyCommand env0 c6Model3 "/copy 2,3").1.currentDir = c6Model3.currentDir ∧
      (handleCopyCommand env0 c6Model3 "/copy 2,3").1.histIdx = c6Model3.histIdx) :=
  c6_copy_range env0 c6Model3 "/copy 2,3" 2 3 "xclip" (by decide) rfl rfl

/-! ## History-cursor invariant -/

/-- The history-cursor invariant: either idle (-1) or a valid 0-based
index into the history list. -/
def histOK (m : Model) : Prop :=
  m.histIdx = -1 ∨ (0 ≤ m.histIdx ∧ m.histIdx < (m.history.length : Int))

theorem handleCopyCommand_histIdx (env : ClipboardEnv) (m : Model) (c : String) :
    (handleCopyCommand env m c).1.histIdx = m.histIdx := by
  simp only [handleCopyCommand]
  split
  all_goals try split
  all_goals try split
  all_goals simp

theorem handleCdCommand_histIdx (m : Model) (c : String) :
    (handleCdCommand m c).histIdx = m.histIdx := by
  simp [handleCdCommand]

/-- Every submission either leaves the model untouched (blank input) or
resets the cursor to -1. -/
theorem handleCommand_histIdx (env : ClipboardEnv) (m : Model) :
    (handleCommand env m).1 = m ∨ (handleCommand env m).1.histIdx = -1 := by
  simp only [handleCommand]
  split_ifs
  · left; rfl
  · right; rfl
  · right; rfl
  · right; rw [handleCopyCommand_histIdx]
  · right; rw [handleCdCommand_histIdx]
  · right; simp

theorem histOK_handleHistoryUp (m : Model) (h : histOK m) :
    histOK (handleHistoryUp m) := by
  unfold histOK at h ⊢
  simp only [handleHistoryUp]
  split_ifs with h1 h2 h3 <;> (try simp) <;> omega

theorem histOK_handleHistoryDown (m : Model) (h : histOK m) :
    histOK (handleHistoryDown m) := by
  unfold histOK at h ⊢
  simp only [handleHistoryDown]
  split_ifs with h1 h2 h3 <;> (try simp) <;> omega

theorem handleHistoryUp_bounds (m : Model) (h : histOK m) (hne : m.history ≠ []) :
    0 ≤ (handleHistoryUp m).histIdx ∧
      (handleHistoryUp m).histIdx < (m.history.length : Int) := by
  have hlen : ¬ m.history.length = 0 := fun e => hne (List.length_eq_zero.mp e)
  unfold histOK at h
  simp only [handleHistoryUp]
  rw [if_neg hlen]
  split_ifs with h2 h3 <;> (try simp) <;> omega

/-- C9 — the history cursor is -1 (idle) or a valid index, every
operation (up, down, submission) preserves this, the initial state
satisfies it, and the up navigation lands the cursor strictly inside the
history whenever the history is nonempty (so its read of the history
list is in bounds). -/
theorem c9_hist_cursor_invariant (env : ClipboardEnv) (m : Model) (h : histOK m) :
    histOK (handleHistoryUp m) ∧
    histOK (handleHistoryDown m) ∧
    histOK (handleCommand env m).1 ∧
    (m.history ≠ [] →
      0 ≤ (handleHistoryUp m).histIdx ∧
      (handleHistoryUp m).histIdx < (m.history.length : Int)) ∧
    histOK shellModel0 := by
  refine ⟨histOK_handleHistoryUp m h, histOK_handleHistoryDown m h, ?_,
    fun hne => handleHistoryUp_bounds m h hne, Or.inl rfl⟩
  rcases handleCommand_histIdx env m with he | he
  · rw [he]; exact h
  · exact Or.inl he

/-- A session browsing history: two entries, cursor on entry 1. -/
def c9M : Model := { shellModel0 with history := ["ls", "pwd"], histIdx := 1 }

/-- C9 witness: the invariant and the in-bounds facts hold at a concrete
browsing state. -/
theorem c9_witness :
    histOK (handleHistoryUp c9M) ∧
    histOK (handleHistoryDown c9M) ∧
    histOK (handleCommand env0 c9M).1 ∧
    (c9M.history ≠ [] →
      0 ≤ (handleHistoryUp c9M).histIdx ∧
      (handleHistoryUp c9M).histIdx < (c9M.history.length : Int)) ∧
    histOK shellModel0 :=
  c9_hist_cursor_invariant env0 c9M (Or.inr (by decide))

/-- C10 (amended) — submitting `clear` empties the output log and, as
with every submission, clears the input and resets the history cursor to
-1; the autocomplete dictionary, the history list and the working
directory are untouched, and no effect is scheduled. -/
theorem c10_clear_frame (env : ClipboardEnv) (m : Model) :
    (handleCommand env { m with inputValue := "clear" }).1.outputLines = [] ∧
    (handleCommand env { m with inputValue := "clear" }).1.autocompleteWords =
      m.autocompleteWords ∧
    (handleCommand env { m with inputValue := "clear" }).1.history = m.history ∧
    (handleCommand env { m with inputValue := "clear" }).1.currentDir = m.currentDir ∧
    (handleCommand env { m with inputValue := "clear" }).1.histIdx = -1 ∧
    (handleCommand env { m with inputValue := "clear" }).2 = [] := by
  have e : handleCommand env { m with inputValue := "clear" } =
      ({ m with inputValue := "", histIdx := -1, outputLines := [] }, []) := by
    simp only [handleCommand]
    simp only [show trimStr "clear" = "clear" from by decide]
    simp
  rw [e]
  exact ⟨rfl, rfl, rfl, rfl, rfl, rfl⟩

/-! ## Claim theorems -/

/-- C2 — code_bug evidence.  The spec requires the original policy value
to be captured at most once per session and never overwritten by a later
elevation.  In this two-event session the first elevation (shell-missing
result, namespace at `baseline`) records `baseline` and pins the label to
`privileged`; when the provisioning attempt then fails with a
PodSecurity-marked error, the `DebugContainerMsg` elevation path re-reads
the label — now `privileged` — and unconditionally overwrites the
recorded original with it (it also neither checks whether the label is
already `privileged`).  Teardown consequently restores `privileged`
instead of `baseline`, leaving the namespace pinned — exactly the
regression that the message "Policy will be restored to original on quit."
message promises to prevent. -/
theorem c2_original_overwritten :
    c2Step1.model.originalPodSecurityPolicy = "baseline" ∧
    c2Step1.model.changedPodSecurityPolicy = true ∧
    c2Step1.world.nsPolicy = "privileged" ∧
    c2Step2.model.originalPodSecurityPolicy = "privileged" ∧
    c2Step2.model.changedPodSecurityPolicy = true ∧
    (mainTeardown false c2Step2.model "n").1 =
      [setPodSecurityPolicyArgs "prod" "privileged"] := by
  decide

/-- C7 — phase-1 autocomplete with the stubbed Gateway: input
`cat /app/re`, glob answer `/app/responses`, directory test `DIR`; the
last token is replaced by the directory-qualified completion with a
trailing separator, giving `cat /app/responses/`. -/
theorem c7_autocomplete_directory :
    (handleAutocomplete c7Stub { shellModel0 with inputValue := "cat /app/re" }).inputValue =
      "cat /app/responses/" := by
  decide

/-- C1 — counterexample to "including abnormal session end": when the
TUI run itself fails, `main` prints the error and exits with status 1
before the cleanup block, so a session in which elevation occurred
(changed flag set, original `baseline` recorded) ends with zero restore
calls. -/
theorem c1_counterexample :
    mElevated.changedPodSecurityPolicy = true ∧
    (mainTeardown true mElevated "n").1.filter isPolicyLabelCall = [] ∧
    (mainTeardown true mElevated "n").2 = 1 := by
  decide

/-- C3 — counterexample to "exhausting the budget is a terminal timeout":
on a cluster where the debug container never becomes ready, the
readiness poll runs its full 30-attempt budget without success, yet
`CreateDebugContainer` does not fail — it still runs the nsenter
strategy probe, returns the `/proc/1/root` fallback successfully, and
the resulting `DebugContainerMsg` makes the session adopt debug mode. -/
theorem c3_counterexample :
    pollFirstReady dwNeverReady = none ∧
    (createDebugContainerM dwNeverReady "kcmd-debug-1").attemptsUsed = 30 ∧
    (createDebugContainerM dwNeverReady "kcmd-debug-1").probeRan = true ∧
    (createDebugContainerM dwNeverReady "kcmd-debug-1").outcome =
      Except.ok ("kcmd-debug-1", "/proc/1/root") ∧
    (stepDebugResult w0 shellModel0
        (debugMsgOfOutcome (createDebugContainerM dwNeverReady "kcmd-debug-1").outcome)).model.useDebugContainer =
      true := by
  decide

/-- C6 — counterexample to "does not mutate the output log": with one
output line (valid bound 1-1), the out-of-range request `/copy 5` is
rejected, but the rejection itself appends the error report to the
output log, growing it from one line to two. -/
theorem c6_counterexample :
    c6Model.outputLines = ["hello"] ∧
    (handleCopyCommand env0 c6Model "/copy 5").1.outputLines =
      ["hello", invalidRangeLine 1] ∧
    (handleCopyCommand env0 c6Model "/copy 5").2 = [] := by
  decide

/-- C10 — counterexample to "the history cursor is unchanged": in a
session whose cursor sits on history entry 0 (after browsing up),
submitting `clear` resets the cursor to -1 — every submission does —
while it empties the output log and leaves the dictionary, history and
directory alone. -/
theorem c10_counterexample :
    c10Browsing.histIdx = 0 ∧
    (handleCommand env0 { c10Browsing with inputValue := "clear" }).1.histIdx = -1 ∧
    (handleCommand env0 { c10Browsing with inputValue := "clear" }).1.outputLines = [] ∧
    (handleCommand env0 { c10Browsing with inputValue := "clear" }).1.history = ["ls"] ∧
    (handleCommand env0 { c10Browsing with inputValue := "clear" }).1.autocompleteWords =
      c10Browsing.autocompleteWords := by
  decide

end Kcmd
